import Mathlib

/-!
Verification of the exam-taking session controller of an online examination
platform.  The definitions below are shallow embeddings of:

* `src/components/student/ExamInterface.tsx` (MCQ / long-answer session
  reducer and submission builder) — namespace `ExamIf`;
* `src/components/student/CodingExamInterface.tsx` (coding session reducer
  and submission builder) — namespace `CodingIf`;
* `src/hooks/use-fullscreen-enforcement.ts` (proctoring monitor) —
  namespace `Fullscreen`;
* `src/ai/flows/execute-code-flow.ts` (code-execution flow) — namespace
  `ExecFlow`.

JavaScript `Map`s are modelled as insertion-ordered association lists
(`List (String × α)`) with `mapGet` / `mapSet` mirroring `Map.get` /
`Map.set` (set of a fresh key appends, set of an existing key replaces
in place).  Nullable JavaScript values are modelled with `Option`;
a `Map` whose values may be `null` becomes `List (String × Option α)`,
so that `mapGet m k = none` is JS `undefined` (no entry) and
`mapGet m k = some none` is an entry holding `null`.  Numbers that the
code treats as integers are `Int` / `Nat`; fractional scores are `ℚ`.
External collaborators (the Piston execution API, the `executeCode`
server action) are parameters: total functions for the per-test-case
fetch outcome, `Except` for the throwing `executeCode` call.
-/

namespace Spec2Proof

/-- JS `Map.get`: first entry with the key, if any. -/
def mapGet {α : Type} (m : List (String × α)) (k : String) : Option α :=
  (m.find? (fun e => e.1 = k)).map (fun e => e.2)

/-- JS `Map.set`: replace in place when the key exists (Map keys are
unique), append otherwise. -/
def mapSet {α : Type} (m : List (String × α)) (k : String) (v : α) :
    List (String × α) :=
  match m with
  | [] => [(k, v)]
  | e :: rest => if e.1 = k then (k, v) :: rest else e :: mapSet rest k v

/-- JS `Array.from(map.keys())`. -/
def mapKeys {α : Type} (m : List (String × α)) : List String :=
  m.map (fun e => e.1)

/-- JS array indexing `arr[i]` with a possibly out-of-range or negative
integer index: `undefined` becomes `none`. -/
def listGetI {α : Type} (l : List α) (i : Int) : Option α :=
  if i < 0 then none else l.get? i.toNat

/-- JS `String.prototype.trim()`: strip leading and trailing
whitespace.  Implemented by structural recursion on the character list
so it evaluates inside the kernel. -/
def jsWhitespace (c : Char) : Bool :=
  c = ' ' || c = '\t' || c = '\n' || c = '\r' || c = '\x0b' || c = '\x0c'

/-- See `jsWhitespace`. -/
def jsTrim (s : String) : String :=
  String.mk (((s.data.dropWhile jsWhitespace).reverse.dropWhile jsWhitespace).reverse)

/-- `QuestionStatus` from `src/types/index.ts`. -/
inductive QuestionStatus
  | notVisited
  | notAnswered
  | answered
  | markedForReview
deriving DecidableEq, Repr

/-- `TestCase` from `src/types/index.ts` (the generated `id` is not
semantically relevant and is omitted). -/
structure TestCase where
  input : String
  expectedOutput : String
deriving DecidableEq, Repr

/-- `TestResult` from `src/types/index.ts`. -/
structure TestResult where
  input : String := ""
  expectedOutput : String := ""
  actualOutput : String := ""
  isCorrect : Bool := false
  error : Option String := none
deriving DecidableEq, Repr

/-- `StudentAnswer` from `src/types/index.ts`; optional fields are
`Option`s defaulting to `none` (JS `undefined`). -/
structure StudentAnswer where
  questionId : String
  questionText : Option String := none
  status : Option QuestionStatus := none
  marks : Option ℚ := none
  selectedOption : Option (Option Int) := none
  correctOption : Option (Option Int) := none
  options : Option (List String) := none
  textAnswer : Option String := none
  sourceCode : Option String := none
  testResults : Option (List TestResult) := none
  totalPassed : Option Nat := none
  totalCases : Option Nat := none
deriving DecidableEq, Repr

/-- `ExamType` from `src/types/index.ts`. -/
inductive ExamType
  | mcq
  | coding
  | longAnswer
deriving DecidableEq, Repr

/-- The supported programming languages (`'python' | 'cpp' | 'java' |
'javascript'`). -/
inductive Language
  | python
  | cpp
  | java
  | javascript
deriving DecidableEq, Repr

/-- The raw string value of a language, as sent to the execution flow. -/
def langString : Language → String
  | .python => "python"
  | .cpp => "cpp"
  | .java => "java"
  | .javascript => "javascript"

/-- A `Question` from `src/types/index.ts` (faculty copy, with
`correctOption`). -/
structure Question where
  id : String
  text : String
  options : Option (List String) := none
  correctOption : Option Int := none
  testCases : Option (List TestCase) := none
deriving DecidableEq, Repr

/-- `StudentExamStatus` from `src/types/index.ts`. -/
inductive StudentExamStatus
  | completed
  | graded
  | suspicious
  | inProgress
deriving DecidableEq, Repr

/-- The `autoSubmitDetails` argument of both `handleSubmitExam`
functions. -/
structure AutoSubmitDetails where
  autoSubmitted : Bool
  exitCount : Nat
deriving DecidableEq, Repr

/-- The submission payload written to `studentExams` (the
`serverTimestamp` field is environment time and is omitted). -/
structure StudentExamSubmission where
  studentId : String
  examId : String
  examTitle : String
  answers : List StudentAnswer
  score : ℚ
  status : Option StudentExamStatus := none
  language : Option Language := none
  autoSubmitted : Option Bool := none
  exitCount : Option Nat := none
deriving DecidableEq, Repr

/-- The per-question push-and-accumulate loop shared by both submission
builders: the `for` loop pushes `(f q).1` onto the answers array and adds
`(f q).2` to the running marks total. -/
def accumulate {α β : Type} (f : α → β × ℚ) (l : List α) : List β × ℚ :=
  l.foldl (fun acc x => ((acc.1 ++ [(f x).1], acc.2 + (f x).2))) ([], 0)

namespace ExamIf

/-- The MCQ / long-answer answer values stored in `state.answers`
(`number | string`, with `null` handled by the surrounding `Option`). -/
inductive AnswerValue
  | num (n : Int)
  | str (s : String)
deriving DecidableEq, Repr

/-- `State` of `ExamInterface.tsx`. -/
structure State where
  currentQuestionIndex : Int
  answers : List (String × Option AnswerValue)
  statuses : List (String × QuestionStatus)
  timeLeft : Int
  examStarted : Bool
  examFinished : Bool
  totalQuestions : Int
deriving DecidableEq, Repr

/-- `AnswerPayload` of `ExamInterface.tsx`. -/
inductive AnswerPayload
  | mcq (questionId : String) (optionIndex : Int)
  | longAnswer (questionId : String) (textAnswer : String)
deriving DecidableEq, Repr

/-- The `questionId` field of an `AnswerPayload`. -/
def AnswerPayload.qid : AnswerPayload → String
  | .mcq questionId _ => questionId
  | .longAnswer questionId _ => questionId

/-- The value an `AnswerPayload` stores into `answers` (`optionIndex` for
mcq, `textAnswer` for long-answer). -/
def AnswerPayload.value : AnswerPayload → AnswerValue
  | .mcq _ optionIndex => .num optionIndex
  | .longAnswer _ textAnswer => .str textAnswer

/-- `Action` of `ExamInterface.tsx` (`INITIALIZE` is `initPayload`). -/
inductive Action
  | initPayload (payload : State)
  | startExam
  | nextQuestion
  | prevQuestion
  | jumpToQuestion (payload : Int)
  | answer (payload : AnswerPayload)
  | clearAnswer (payload : String)
  | toggleMarkForReview (payload : String)
  | tickTimer
  | finishExam
deriving DecidableEq, Repr

/-- Whether an action is the `INITIALIZE` action. -/
def Action.isInit : Action → Bool
  | .initPayload _ => true
  | _ => false

/-- `examReducer` of `ExamInterface.tsx` (lines 56–138), translated
case by case.  Out-of-range key lookups (`Array.from(keys)[i]` giving
`undefined`, then `map.get(undefined)` giving `undefined`) fall through
the `not-visited` test exactly as in the source. -/
def examReducer (state : State) (action : Action) : State :=
  match action with
  | .initPayload payload => payload
  | .startExam =>
      if state.statuses.length = 0 then { state with examStarted := true }
      else
        match listGetI (mapKeys state.statuses) 0 with
        | none => { state with examStarted := true }
        | some firstQuestionId =>
            let newStatuses :=
              if mapGet state.statuses firstQuestionId = some .notVisited then
                mapSet state.statuses firstQuestionId .notAnswered
              else state.statuses
            { state with examStarted := true, statuses := newStatuses }
  | .nextQuestion =>
      let nextIndex := min (state.currentQuestionIndex + 1) (state.totalQuestions - 1)
      let newStatuses :=
        match listGetI (mapKeys state.statuses) nextIndex with
        | some questionId =>
            if mapGet state.statuses questionId = some .notVisited then
              mapSet state.statuses questionId .notAnswered
            else state.statuses
        | none => state.statuses
      { state with currentQuestionIndex := nextIndex, statuses := newStatuses }
  | .prevQuestion =>
      let prevIndex := max (state.currentQuestionIndex - 1) 0
      { state with currentQuestionIndex := prevIndex }
  | .jumpToQuestion payload =>
      let newStatuses :=
        match listGetI (mapKeys state.statuses) payload with
        | some questionId =>
            if mapGet state.statuses questionId = some .notVisited then
              mapSet state.statuses questionId .notAnswered
            else state.statuses
        | none => state.statuses
      { state with currentQuestionIndex := payload, statuses := newStatuses }
  | .answer payload =>
      let newAnswers := mapSet state.answers payload.qid (some payload.value)
      let newStatuses :=
        if mapGet state.statuses payload.qid ≠ some .markedForReview then
          mapSet state.statuses payload.qid .answered
        else state.statuses
      { state with answers := newAnswers, statuses := newStatuses }
  | .clearAnswer payload =>
      let newAnswers := mapSet state.answers payload none
      let newStatuses :=
        if mapGet state.statuses payload ≠ some .markedForReview then
          mapSet state.statuses payload .notAnswered
        else state.statuses
      { state with answers := newAnswers, statuses := newStatuses }
  | .toggleMarkForReview payload =>
      let currentStatus := mapGet state.statuses payload
      let newStatuses :=
        if currentStatus = some .markedForReview then
          let hasValue :=
            match mapGet state.answers payload with
            | some (some _) => true
            | _ => false
          mapSet state.statuses payload
            (if hasValue then .answered else .notAnswered)
        else
          mapSet state.statuses payload .markedForReview
      { state with statuses := newStatuses }
  | .tickTimer =>
      if state.timeLeft ≤ 1 then
        { state with timeLeft := 0, examFinished := true }
      else
        { state with timeLeft := state.timeLeft - 1 }
  | .finishExam => { state with examFinished := true, timeLeft := 0 }

/-- The invariant `0 <= currentQuestionIndex < totalQuestions`. -/
def indexInvariant (s : State) : Prop :=
  0 ≤ s.currentQuestionIndex ∧ s.currentQuestionIndex < s.totalQuestions

instance (s : State) : Decidable (indexInvariant s) := by
  unfold indexInvariant; infer_instance

end ExamIf

namespace CodingIf

/-- `State` of `CodingExamInterface.tsx`. -/
structure State where
  timeLeft : Int
  examStarted : Bool
  examFinished : Bool
  answers : List (String × StudentAnswer)
  language : Language
deriving DecidableEq, Repr

/-- `Action` of `CodingExamInterface.tsx` (`INITIALIZE` is
`initPayload`). -/
inductive Action
  | initPayload (payload : State)
  | startExam
  | updateCode (questionId : String) (sourceCode : String)
  | updateLanguage (payload : Language)
  | setRunResults (questionId : String) (results : List TestResult)
  | tickTimer
  | finishExam
deriving DecidableEq, Repr

/-- Whether an action is the `INITIALIZE` action. -/
def Action.isInit : Action → Bool
  | .initPayload _ => true
  | _ => false

/-- `examReducer` of `CodingExamInterface.tsx` (lines 44–84).  The JS
`newAnswers.get(id) || { questionId: id }` default is `Option.getD`
(objects are always truthy). -/
def examReducer (state : State) (action : Action) : State :=
  match action with
  | .initPayload payload => payload
  | .startExam => { state with examStarted := true }
  | .updateCode questionId sourceCode =>
      let answer := (mapGet state.answers questionId).getD { questionId := questionId }
      { state with
        answers := mapSet state.answers questionId
          { answer with sourceCode := some sourceCode } }
  | .updateLanguage payload => { state with language := payload }
  | .setRunResults questionId results =>
      let answer := (mapGet state.answers questionId).getD { questionId := questionId }
      let allPassed := results.all (fun r => r.isCorrect)
      let updatedAnswer : StudentAnswer :=
        { answer with
          testResults := some results
          totalPassed := some (results.filter (fun r => r.isCorrect)).length
          totalCases := some results.length
          status := some (if allPassed then .answered else .notAnswered)
          marks := some (if allPassed then (100 : ℚ) else 0) }
      { state with answers := mapSet state.answers questionId updatedAnswer }
  | .tickTimer =>
      if state.timeLeft ≤ 1 then
        { state with timeLeft := 0, examFinished := true }
      else
        { state with timeLeft := state.timeLeft - 1 }
  | .finishExam => { state with examFinished := true, timeLeft := 0 }

end CodingIf

namespace Fullscreen

/-- `MAX_EXITS` of `use-fullscreen-enforcement.ts`. -/
def MAX_EXITS : Nat := 5

/-- The hook state: `exitCount`, the `warningIssued` latch, the
`countdown` (in seconds, `null` when stopped) and the persisted
`localStorage` slot for this exam id. -/
structure HookState where
  exitCount : Nat
  warningIssued : Bool
  countdown : Option Int
  storage : Option Nat
deriving DecidableEq, Repr

/-- The observable effects of one run of the security effect: the warning
toast (with the new count), the auto-submit toast, and the call to
`onAutoSubmit`. -/
inductive HookEvent
  | warningToast (newCount : Nat)
  | autoSubmitToast
  | autoSubmitCall
deriving DecidableEq, Repr

/-- The violation-handling effect of `use-fullscreen-enforcement.ts`
(lines 78–115), as a step function from the signals and the hook state to
the new hook state and the emitted events. -/
def securityEffect (examStarted examFinished : Bool)
    (isFullscreen isPageVisible : Bool) (s : HookState) :
    HookState × List HookEvent :=
  if !examStarted || examFinished then
    ({ s with countdown := none }, [])
  else
    let isSecure := isFullscreen && isPageVisible
    if isSecure then
      ({ s with warningIssued := false, countdown := none }, [])
    else
      if !s.warningIssued then
        let newCount := s.exitCount + 1
        let s1 : HookState :=
          { s with
            exitCount := newCount
            storage := some newCount
            warningIssued := true
            countdown := some 30 }
        if newCount > MAX_EXITS then
          (s1, [.autoSubmitToast, .autoSubmitCall])
        else
          (s1, [.warningToast newCount])
      else
        (s, [])

end Fullscreen

namespace ExecFlow

/-- The input of `executeCode` / `executeCodeFlow`
(`ExecuteCodeInputSchema`). -/
structure ExecuteCodeInput where
  language : String
  sourceCode : String
  testCases : List TestCase
deriving DecidableEq, Repr

/-- The output of `executeCodeFlow` (`ExecuteCodeOutputSchema`). -/
structure ExecuteCodeOutput where
  results : List TestResult
  totalPassed : Nat
  totalCases : Nat
deriving DecidableEq, Repr

/-- One HTTP request to the Piston API. -/
structure PistonRequest where
  language : String
  sourceCode : String
  stdin : String
deriving DecidableEq, Repr

/-- The possible outcomes of one `fetch` of the Piston API, as seen by
the flow: the fetch (or JSON parsing) threw, the response was not `ok`,
or a parsed run result with its `output` and `stderr` strings
(`result.run.output || ''` collapses a missing output to `""`). -/
inductive FetchOutcome
  | threw (message : String)
  | httpError (statusText : String) (body : String)
  | ok (runOutput : String) (stderr : String)
deriving DecidableEq, Repr

/-- The `languageMap` lookup `languageMap[input.language] ||
input.language` of `execute-code-flow.ts`. -/
def mapLanguage (language : String) : String :=
  if language = "javascript" then "javascript"
  else if language = "python" then "python"
  else if language = "java" then "java"
  else if language = "cpp" then "c++"
  else language

/-- The loop body of `executeCodeFlow` for one test case: the pushed
`TestResult` and the increment of `totalPassed` (1 exactly when the ok
branch found a correct output). -/
def runTestCase (fetched : FetchOutcome) (testCase : TestCase) :
    TestResult × Nat :=
  match fetched with
  | .httpError statusText body =>
      let errorMessage :=
        "API Error: " ++ statusText ++ (if body = "" then "" else " - " ++ body)
      ({ input := testCase.input
         expectedOutput := testCase.expectedOutput
         actualOutput := errorMessage
         isCorrect := false
         error := some errorMessage }, 0)
  | .ok runOutput stderr =>
      let actualOutput := jsTrim runOutput
      let isCorrect := actualOutput == jsTrim testCase.expectedOutput
      ({ input := testCase.input
         expectedOutput := testCase.expectedOutput
         actualOutput := actualOutput
         isCorrect := isCorrect
         error := if stderr = "" then none else some stderr },
       if isCorrect then 1 else 0)
  | .threw message =>
      ({ input := testCase.input
         expectedOutput := testCase.expectedOutput
         actualOutput := "Execution Failed"
         isCorrect := false
         error := some (if message = "" then "An unknown error occurred." else message) },
       0)

/-- `executeCodeFlow` of `execute-code-flow.ts` (lines 37–104),
parameterised by the outcome of each Piston request. -/
def executeCodeFlow (fetchOutcome : PistonRequest → FetchOutcome)
    (input : ExecuteCodeInput) : ExecuteCodeOutput :=
  let executionLanguage := mapLanguage input.language
  let step := fun (acc : List TestResult × Nat) (testCase : TestCase) =>
    let r := runTestCase
      (fetchOutcome ⟨executionLanguage, input.sourceCode, testCase.input⟩) testCase
    (acc.1 ++ [r.1], acc.2 + r.2)
  let out := input.testCases.foldl step ([], 0)
  { results := out.1
    totalPassed := out.2
    totalCases := input.testCases.length }

/-- Whether a fetch outcome is a network or API failure (anything except
a parsed ok response). -/
def FetchOutcome.isFailure : FetchOutcome → Bool
  | .ok _ _ => false
  | _ => true

end ExecFlow

namespace ExamIf

/-- One iteration of the `examData.questions.map` of `handleSubmitExam`
in `ExamInterface.tsx` (lines 370–401): the built `StudentAnswer` and
the marks added to `totalScore`.  `state.answers.get(q.id) ?? null`
collapses a missing entry and a stored `null` to `null`
(`(mapGet …).getD none`); the `typeof` tests become matches on the
`AnswerValue` constructors. -/
def buildStudentAnswer (examType : ExamType)
    (answers : List (String × Option AnswerValue))
    (statuses : List (String × QuestionStatus)) (q : Question) :
    StudentAnswer × ℚ :=
  let answer : Option AnswerValue := (mapGet answers q.id).getD none
  let status : QuestionStatus := (mapGet statuses q.id).getD .notVisited
  if examType = .mcq then
    let isCorrect :=
      match answer, q.correctOption with
      | some (.num n), some m => n == m
      | _, _ => false
    let marks : ℚ := if isCorrect then 100 else 0
    ({ questionId := q.id
       questionText := some q.text
       status := some status
       selectedOption := some
         (match answer with | some (.num n) => some n | _ => none)
       correctOption := some q.correctOption
       options := some (q.options.getD [])
       marks := some marks }, marks)
  else
    let isAnswered :=
      match answer with
      | some (.str s) => jsTrim s != ""
      | _ => false
    let marks : ℚ := if isAnswered then 100 else 0
    ({ questionId := q.id
       questionText := some q.text
       status := some status
       textAnswer := some (match answer with | some (.str s) => s | _ => "")
       marks := some marks }, marks)

/-- `handleSubmitExam` of `ExamInterface.tsx` (lines 362–450), reduced to
the submission record it builds: per-question answers with marks, the
final score, the conditional auto-submit metadata
(`...(autoSubmitDetails && { autoSubmitted, exitCount })`) and the status
assignment (lines 412–424). -/
def handleSubmitExam (uid examId examTitle : String) (examType : ExamType)
    (questions : List Question)
    (answers : List (String × Option AnswerValue))
    (statuses : List (String × QuestionStatus))
    (autoSubmitDetails : Option AutoSubmitDetails) : StudentExamSubmission :=
  let scored := accumulate (buildStudentAnswer examType answers statuses) questions
  let finalScore : ℚ :=
    if questions.length > 0 then scored.2 / (questions.length : ℚ) else 0
  let base : StudentExamSubmission :=
    { studentId := uid
      examId := examId
      examTitle := examTitle
      answers := scored.1
      score := finalScore
      autoSubmitted := autoSubmitDetails.map (fun d => d.autoSubmitted)
      exitCount := autoSubmitDetails.map (fun d => d.exitCount) }
  if (autoSubmitDetails.map (fun d => d.autoSubmitted)).getD false then
    { base with status := some .suspicious }
  else if examType = .mcq then
    { base with status := some .graded }
  else
    { base with status := some .completed }

end ExamIf

namespace CodingIf

/-- The synthesized failing test result pushed for each test case when
execution throws during submission (`CodingExamInterface.tsx` line 254;
the fresh `uuidv4()` id is not modelled). -/
def syntheticFailure (tc : TestCase) : TestResult :=
  { input := tc.input
    expectedOutput := tc.expectedOutput
    actualOutput := "Execution Error on Submit"
    isCorrect := false
    error := some "Submission execution failed" }

/-- One iteration of the submission loop of `handleSubmitExam` in
`CodingExamInterface.tsx` (lines 213–259): the pushed `StudentAnswer`
and the marks added to `totalMarks`.  The `executeCode` collaborator is
a parameter returning `Except` (a thrown promise rejection is
`Except.error`).  `!answer || !answer.sourceCode` catches a missing
entry, a missing `sourceCode` and the empty string. -/
def scoreOneQuestion (language : Language)
    (executeCode : ExecFlow.ExecuteCodeInput → Except String ExecFlow.ExecuteCodeOutput)
    (answers : List (String × StudentAnswer)) (question : Question) :
    StudentAnswer × ℚ :=
  let stored := mapGet answers question.id
  let src : Option String := stored.bind (fun a => a.sourceCode)
  match stored, src with
  | some answer, some sourceCode =>
      if sourceCode = "" then
        ({ questionId := question.id
           questionText := some question.text
           testResults := some []
           status := some .notAnswered
           marks := some 0
           sourceCode := some "" }, 0)
      else
        let input : ExecFlow.ExecuteCodeInput :=
          { language := langString language
            sourceCode := sourceCode
            testCases := question.testCases.getD [] }
        match executeCode input with
        | .ok result =>
            let marksForQuestion : ℚ :=
              if result.totalCases > 0 then
                ((result.totalPassed : ℚ) / (result.totalCases : ℚ)) * 100
              else 0
            ({ answer with
               questionId := question.id
               questionText := some question.text
               testResults := some result.results
               totalPassed := some result.totalPassed
               totalCases := some result.totalCases
               marks := some marksForQuestion
               status := some (if result.totalPassed = result.totalCases
                 then .answered else .notAnswered) }, marksForQuestion)
        | .error _ =>
            ({ answer with
               questionId := question.id
               questionText := some question.text
               testResults := some ((question.testCases.getD []).map syntheticFailure)
               status := some .notAnswered
               marks := some 0 }, 0)
  | _, _ =>
      ({ questionId := question.id
         questionText := some question.text
         testResults := some []
         status := some .notAnswered
         marks := some 0
         sourceCode := some "" }, 0)

/-- `handleSubmitExam` of `CodingExamInterface.tsx` (lines 204–300),
reduced to the submission record it builds: the per-question
re-execution loop, the overall score, and the status / auto-submit
metadata assignment (lines 263–279). -/
def handleSubmitExam (uid examId examTitle : String) (language : Language)
    (executeCode : ExecFlow.ExecuteCodeInput → Except String ExecFlow.ExecuteCodeOutput)
    (shuffledQuestions : List Question)
    (answers : List (String × StudentAnswer))
    (autoSubmitDetails : Option AutoSubmitDetails) : StudentExamSubmission :=
  let scored := accumulate (scoreOneQuestion language executeCode answers) shuffledQuestions
  let overallScore : ℚ :=
    if shuffledQuestions.length > 0 then
      scored.2 / (shuffledQuestions.length : ℚ)
    else 0
  let base : StudentExamSubmission :=
    { studentId := uid
      examId := examId
      examTitle := examTitle
      answers := scored.1
      score := overallScore
      language := some language }
  match autoSubmitDetails with
  | some details =>
      { base with
        autoSubmitted := some details.autoSubmitted
        exitCount := some details.exitCount
        status := some .suspicious }
  | none => { base with status := some .graded }

end CodingIf

namespace SubmitGuard

/-- The submission controller seen by one exam session, under the
single cooperative execution context of the design: the `isSubmitting`
in-flight flag, the `studentExams` document store keyed by
`` `${user.uid}_${examId}` ``, and a count of persistence writes
performed. -/
structure ControllerState where
  isSubmitting : Bool
  store : List (String × StudentExamSubmission)
  writeCount : Nat
deriving DecidableEq, Repr

/-- One invocation of `handleSubmitExam`'s guard-and-write skeleton
(`ExamInterface.tsx` lines 362–366 and 429–430,
`CodingExamInterface.tsx` lines 204–207 and 285): bail out while
`isSubmitting` is set, otherwise set the flag before anything else and
perform the single keyed merge write. -/
def submitInvocation (uid examId : String) (payload : StudentExamSubmission)
    (c : ControllerState) : ControllerState :=
  if c.isSubmitting then c
  else
    { isSubmitting := true
      store := mapSet c.store (uid ++ "_" ++ examId) payload
      writeCount := c.writeCount + 1 }

end SubmitGuard


/-! ### Concrete states used by the per-claim counterexamples and
witnesses -/

/-- A finished MCQ-interface session state over one question. -/
def c1exS : ExamIf.State :=
  { currentQuestionIndex := 0
    answers := [("q1", some (.num 0))]
    statuses := [("q1", .answered)]
    timeLeft := 0
    examStarted := true
    examFinished := true
    totalQuestions := 1 }

/-- A finished coding-interface session state. -/
def c1exT : CodingIf.State :=
  { timeLeft := 0
    examStarted := true
    examFinished := true
    answers := []
    language := .python }

/-- A hook state that has already recorded `MAX_EXITS` violations and is
currently secure (latch clear). -/
def c2cexS : Fullscreen.HookState :=
  { exitCount := 5, warningIssued := false, countdown := none, storage := some 5 }

/-- A hook state with two prior violations, secure, latch clear. -/
def c2exS : Fullscreen.HookState :=
  { exitCount := 2, warningIssued := false, countdown := none, storage := some 2 }

/-- A collaborator that fails for the source `"boom"` and otherwise
reports one passed test case. -/
def c3exec : ExecFlow.ExecuteCodeInput → Except String ExecFlow.ExecuteCodeOutput :=
  fun input =>
    if input.sourceCode = "boom" then Except.error "network down"
    else Except.ok
      { results := [{ input := "1", expectedOutput := "2",
                      actualOutput := "2", isCorrect := true }]
        totalPassed := 1
        totalCases := 1 }

/-- First coding question of the C3 witness. -/
def c3q1 : Question :=
  { id := "q1", text := "p1", testCases := some [⟨"1", "2"⟩] }

/-- Second coding question of the C3 witness. -/
def c3q2 : Question :=
  { id := "q2", text := "p2", testCases := some [⟨"3", "4"⟩] }

/-- A stored answer whose earlier manual run claimed all test cases
passed (marks 100), with source `"boom"` that now fails on re-execution. -/
def c3ans1 : StudentAnswer :=
  { questionId := "q1"
    sourceCode := some "boom"
    testResults := some [{ input := "1", expectedOutput := "2",
                           actualOutput := "2", isCorrect := true }]
    totalPassed := some 1
    totalCases := some 1
    marks := some 100
    status := some .answered }

/-- The answers map of the C3 witness. -/
def c3answers : List (String × StudentAnswer) :=
  [("q1", c3ans1), ("q2", { questionId := "q2", sourceCode := some "good" })]

/-- An idle submission controller with an empty store. -/
def c5exC : SubmitGuard.ControllerState :=
  { isSubmitting := false, store := [], writeCount := 0 }

/-- A concrete submission payload. -/
def c5exP : StudentExamSubmission :=
  { studentId := "u", examId := "e", examTitle := "T", answers := [], score := 0 }

/-- A running one-question session at index 0. -/
def c6exS : ExamIf.State :=
  { currentQuestionIndex := 0
    answers := []
    statuses := [("q1", .notAnswered)]
    timeLeft := 60
    examStarted := true
    examFinished := false
    totalQuestions := 1 }

/-- A running two-question session at index 1 whose first question was
never visited (reachable by jumping from question 1 to question 2). -/
def c7exS : ExamIf.State :=
  { currentQuestionIndex := 1
    answers := []
    statuses := [("q1", .notVisited), ("q2", .notAnswered)]
    timeLeft := 60
    examStarted := true
    examFinished := false
    totalQuestions := 2 }

/-- A running session whose question is marked for review and has a
stored answer. -/
def c8exS : ExamIf.State :=
  { currentQuestionIndex := 0
    answers := [("q1", some (.num 0))]
    statuses := [("q1", .markedForReview)]
    timeLeft := 60
    examStarted := true
    examFinished := false
    totalQuestions := 1 }

/-- A running session whose question is not marked for review. -/
def c8exS2 : ExamIf.State :=
  { currentQuestionIndex := 0
    answers := []
    statuses := [("q1", .notAnswered)]
    timeLeft := 60
    examStarted := true
    examFinished := false
    totalQuestions := 1 }

/-! ### Supporting lemmas -/

theorem accumulate_go {α β : Type} (f : α → β × ℚ) :
    ∀ (l : List α) (acc : List β) (m : ℚ),
      l.foldl (fun acc x => ((acc.1 ++ [(f x).1], acc.2 + (f x).2))) (acc, m)
        = (acc ++ l.map (fun x => (f x).1), m + (l.map (fun x => (f x).2)).sum)
  | [], acc, m => by simp
  | x :: l, acc, m => by
      simp only [List.foldl_cons, List.map_cons, List.sum_cons]
      rw [accumulate_go f l]
      simp [List.append_assoc]
      ring

theorem accumulate_fst {α β : Type} (f : α → β × ℚ) (l : List α) :
    (accumulate f l).1 = l.map (fun x => (f x).1) := by
  simp [accumulate, accumulate_go]

theorem accumulate_snd {α β : Type} (f : α → β × ℚ) (l : List α) :
    (accumulate f l).2 = (l.map (fun x => (f x).2)).sum := by
  simp [accumulate, accumulate_go]

theorem mapGet_mapSet_self {α : Type} (m : List (String × α)) (k : String) (v : α) :
    mapGet (mapSet m k v) k = some v := by
  induction m with
  | nil => simp [mapGet, mapSet, List.find?]
  | cons e rest ih =>
      by_cases he : e.1 = k
      · simp [mapGet, mapSet, he, List.find?]
      · simp only [mapSet, if_neg he]
        unfold mapGet
        rw [List.find?_cons_of_neg _ (by simpa using he)]
        exact ih

theorem mapGet_mapSet_ne {α : Type} (m : List (String × α)) (k k' : String)
    (v : α) (hne : k' ≠ k) : mapGet (mapSet m k v) k' = mapGet m k' := by
  induction m with
  | nil =>
      unfold mapGet mapSet
      rw [List.find?_cons_of_neg _ (by simpa using fun hk => hne hk.symm)]
  | cons e rest ih =>
      by_cases he : e.1 = k
      · simp only [mapSet, if_pos he]
        unfold mapGet
        rw [List.find?_cons_of_neg _ (by simpa using fun hk => hne hk.symm)]
        have hek : ¬ e.1 = k' := by rw [he]; exact fun hk => hne hk.symm
        rw [List.find?_cons_of_neg _ (by simpa using hek)]
      · simp only [mapSet, if_neg he]
        by_cases hek' : e.1 = k'
        · unfold mapGet
          rw [List.find?_cons_of_pos _ (by simpa using hek'),
            List.find?_cons_of_pos _ (by simpa using hek')]
        · unfold mapGet
          rw [List.find?_cons_of_neg _ (by simpa using hek'),
            List.find?_cons_of_neg _ (by simpa using hek')]
          exact ih


theorem filter_mapSet_of_fresh {α : Type} (m : List (String × α)) (k : String) (v : α)
    (h : (m.filter (fun e => e.1 = k)).length = 0) :
    ((mapSet m k v).filter (fun e => e.1 = k)).length = 1 := by
  induction m with
  | nil => simp [mapSet]
  | cons e rest ih =>
      by_cases he : e.1 = k
      · rw [List.filter_cons_of_pos (by simpa using he)] at h
        simp at h
      · rw [List.filter_cons_of_neg (by simpa using he)] at h
        simp only [mapSet, if_neg he]
        rw [List.filter_cons_of_neg (by simpa using he)]
        exact ih h

theorem flow_go (g : TestCase → TestResult × Nat) :
    ∀ (l : List TestCase) (acc : List TestResult) (n : Nat),
      l.foldl (fun acc tc => (acc.1 ++ [(g tc).1], acc.2 + (g tc).2)) (acc, n)
        = (acc ++ l.map (fun tc => (g tc).1), n + (l.map (fun tc => (g tc).2)).sum)
  | [], acc, n => by simp
  | tc :: l, acc, n => by
      simp only [List.foldl_cons, List.map_cons, List.sum_cons]
      rw [flow_go g l]
      simp [List.append_assoc]
      omega

theorem executeCodeFlow_spec (fetchOutcome : ExecFlow.PistonRequest → ExecFlow.FetchOutcome)
    (input : ExecFlow.ExecuteCodeInput) :
    (ExecFlow.executeCodeFlow fetchOutcome input).results
      = input.testCases.map (fun tc =>
          (ExecFlow.runTestCase
            (fetchOutcome ⟨ExecFlow.mapLanguage input.language, input.sourceCode, tc.input⟩)
            tc).1) ∧
    (ExecFlow.executeCodeFlow fetchOutcome input).totalPassed
      = (input.testCases.map (fun tc =>
          (ExecFlow.runTestCase
            (fetchOutcome ⟨ExecFlow.mapLanguage input.language, input.sourceCode, tc.input⟩)
            tc).2)).sum := by
  simp only [ExecFlow.executeCodeFlow]
  rw [flow_go (fun tc => ExecFlow.runTestCase
    (fetchOutcome ⟨ExecFlow.mapLanguage input.language, input.sourceCode, tc.input⟩) tc)]
  simp

theorem runTestCase_snd (fr : ExecFlow.FetchOutcome) (tc : TestCase) :
    (ExecFlow.runTestCase fr tc).2
      = if (ExecFlow.runTestCase fr tc).1.isCorrect then 1 else 0 := by
  cases fr <;> simp [ExecFlow.runTestCase]

theorem sum_snd_eq_filter_length {α : Type} (g : α → TestResult × Nat)
    (hg : ∀ x, (g x).2 = if (g x).1.isCorrect then 1 else 0) :
    ∀ l : List α,
      (l.map (fun x => (g x).2)).sum
        = ((l.map (fun x => (g x).1)).filter (fun r => r.isCorrect)).length
  | [] => by simp
  | x :: l => by
      simp only [List.map_cons, List.sum_cons, List.filter_cons, hg x]
      rw [sum_snd_eq_filter_length g hg l]
      by_cases hc : (g x).1.isCorrect
      · simp [hc]
        omega
      · simp [hc]

theorem codingAnswers_eq (uid examId title : String) (language : Language)
    (executeCode : ExecFlow.ExecuteCodeInput → Except String ExecFlow.ExecuteCodeOutput)
    (qs : List Question) (answers : List (String × StudentAnswer))
    (details : Option AutoSubmitDetails) :
    (CodingIf.handleSubmitExam uid examId title language executeCode qs answers
        details).answers
      = qs.map (fun q => (CodingIf.scoreOneQuestion language executeCode answers q).1) := by
  simp only [CodingIf.handleSubmitExam]
  rcases details with _ | d <;> simp [accumulate_fst]

theorem scoreOneQuestion_ok (language : Language)
    (executeCode : ExecFlow.ExecuteCodeInput → Except String ExecFlow.ExecuteCodeOutput)
    (answers : List (String × StudentAnswer)) (q : Question)
    (ans : StudentAnswer) (src : String) (r : ExecFlow.ExecuteCodeOutput)
    (ha : mapGet answers q.id = some ans)
    (hsrc : ans.sourceCode = some src) (hne : src ≠ "")
    (hexec : executeCode ⟨langString language, src, q.testCases.getD []⟩ = Except.ok r) :
    ((CodingIf.scoreOneQuestion language executeCode answers q).1.marks
      = some (if r.totalCases > 0 then
          ((r.totalPassed : ℚ) / (r.totalCases : ℚ)) * 100 else 0)) ∧
    ((CodingIf.scoreOneQuestion language executeCode answers q).1.testResults
      = some r.results) ∧
    ((CodingIf.scoreOneQuestion language executeCode answers q).1.totalPassed
      = some r.totalPassed) ∧
    ((CodingIf.scoreOneQuestion language executeCode answers q).1.totalCases
      = some r.totalCases) := by
  simp [CodingIf.scoreOneQuestion, ha, hsrc, hne, hexec]

theorem scoreOneQuestion_error (language : Language)
    (executeCode : ExecFlow.ExecuteCodeInput → Except String ExecFlow.ExecuteCodeOutput)
    (answers : List (String × StudentAnswer)) (q : Question)
    (ans : StudentAnswer) (src : String) (e : String)
    (ha : mapGet answers q.id = some ans)
    (hsrc : ans.sourceCode = some src) (hne : src ≠ "")
    (hexec : executeCode ⟨langString language, src, q.testCases.getD []⟩
      = Except.error e) :
    ((CodingIf.scoreOneQuestion language executeCode answers q).1.marks = some 0) ∧
    ((CodingIf.scoreOneQuestion language executeCode answers q).1.testResults
      = some ((q.testCases.getD []).map CodingIf.syntheticFailure)) := by
  simp [CodingIf.scoreOneQuestion, ha, hsrc, hne, hexec]



/-! ### Claim C1 -/

/-- C1 counterexample: the claim that every further action on a finished
state returns the state unchanged is false — dispatching `ANSWER` to a
finished session still mutates the answers map, because `examReducer`
never tests `examFinished`. -/
theorem c1_counterexample :
    ExamIf.examReducer c1exS (.answer (.mcq "q1" 1)) ≠ c1exS := by
  decide

/-- C1 (amended): once `examFinished` is `true` (with `timeLeft` pinned
to 0, as every `FINISH_EXAM` / terminal `TICK_TIMER` leaves it), every
non-`INITIALIZE` action of both exam reducers preserves
`examFinished = true` and `timeLeft = 0`, and `TICK_TIMER` and
`FINISH_EXAM` leave the state entirely unchanged; but the reducers do
not guard the remaining actions, which can still mutate answers,
statuses, the question index and the language (see the counterexample).
The once-finished no-transition guarantee is provided structurally by
the interface (the finished screen renders no dispatching controls),
not by the reducer. -/
theorem c1_finished_flag_absorbing
    (s : ExamIf.State) (t : CodingIf.State)
    (a : ExamIf.Action) (b : CodingIf.Action)
    (hs : s.examFinished = true) (hsl : s.timeLeft = 0)
    (ht : t.examFinished = true) (htl : t.timeLeft = 0)
    (ha : a.isInit = false) (hb : b.isInit = false) :
    (ExamIf.examReducer s a).examFinished = true ∧
    (ExamIf.examReducer s a).timeLeft = 0 ∧
    ExamIf.examReducer s ExamIf.Action.tickTimer = s ∧
    ExamIf.examReducer s ExamIf.Action.finishExam = s ∧
    (CodingIf.examReducer t b).examFinished = true ∧
    (CodingIf.examReducer t b).timeLeft = 0 ∧
    CodingIf.examReducer t CodingIf.Action.tickTimer = t ∧
    CodingIf.examReducer t CodingIf.Action.finishExam = t := by
  obtain ⟨i, ans, st, tl, es, ef, tq⟩ := s
  obtain ⟨tl2, es2, ef2, ans2, lang2⟩ := t
  simp only at hs hsl ht htl
  subst hs hsl ht htl
  refine ⟨?_, ?_, ?_, ?_, ?_, ?_, ?_, ?_⟩
  · cases a <;> try simp_all [ExamIf.examReducer, ExamIf.Action.isInit]
    all_goals (repeat' split) <;> try simp_all
  · cases a <;> try simp_all [ExamIf.examReducer, ExamIf.Action.isInit]
    all_goals (repeat' split) <;> try simp_all
  · simp [ExamIf.examReducer]
  · simp [ExamIf.examReducer]
  · cases b <;> simp_all [CodingIf.examReducer, CodingIf.Action.isInit]
  · cases b <;> simp_all [CodingIf.examReducer, CodingIf.Action.isInit]
  · simp [CodingIf.examReducer]
  · simp [CodingIf.examReducer]

/-- C1 witness: the amended theorem applied to a concrete finished MCQ
state and a concrete finished coding state with the `START_EXAM`
action. -/
theorem c1_witness :
    (ExamIf.examReducer c1exS ExamIf.Action.startExam).examFinished = true ∧
    (ExamIf.examReducer c1exS ExamIf.Action.startExam).timeLeft = 0 ∧
    ExamIf.examReducer c1exS ExamIf.Action.tickTimer = c1exS ∧
    ExamIf.examReducer c1exS ExamIf.Action.finishExam = c1exS ∧
    (CodingIf.examReducer c1exT CodingIf.Action.startExam).examFinished = true ∧
    (CodingIf.examReducer c1exT CodingIf.Action.startExam).timeLeft = 0 ∧
    CodingIf.examReducer c1exT CodingIf.Action.tickTimer = c1exT ∧
    CodingIf.examReducer c1exT CodingIf.Action.finishExam = c1exT :=
  c1_finished_flag_absorbing c1exS c1exT ExamIf.Action.startExam
    CodingIf.Action.startExam rfl rfl rfl rfl rfl rfl

/-! ### Claim C2 -/

/-- C2 counterexample: on the exit that takes the count from
`MAX_EXITS` to `MAX_EXITS + 1` the hook does start the 30-second
countdown (`setCountdown(30)` runs before the `newCount > MAX_EXITS`
test), contradicting the claim that no countdown is started for that
exit; `onAutoSubmit` is nevertheless invoked immediately. -/
theorem c2_counterexample :
    ((Fullscreen.securityEffect true false false false c2cexS).1.countdown
        ≠ none) ∧
    ((Fullscreen.securityEffect true false false false c2cexS).1.countdown
        = some 30) ∧
    ((Fullscreen.securityEffect true false false false c2cexS).2
        = [Fullscreen.HookEvent.autoSubmitToast,
           Fullscreen.HookEvent.autoSubmitCall]) := by
  decide

/-- C2 (amended): while the exam is running, a signal observed in the
insecure state with the `warningIssued` latch clear increments the
exit count by exactly one and persists the new count; for a new count
of at most `MAX_EXITS` only the warning toast is emitted, and exactly
when the new count exceeds `MAX_EXITS` `onAutoSubmit` is invoked
immediately with no warning toast — but the 30-second countdown is set
in both cases, not skipped on the final exit.  While still insecure
with the latch set, a further signal changes nothing and emits
nothing. -/
theorem c2_exit_escalation (s : Fullscreen.HookState)
    (isFullscreen isPageVisible : Bool)
    (hw : s.warningIssued = false)
    (hins : (isFullscreen && isPageVisible) = false) :
    ((Fullscreen.securityEffect true false isFullscreen isPageVisible s).1.exitCount
        = s.exitCount + 1) ∧
    ((Fullscreen.securityEffect true false isFullscreen isPageVisible s).1.storage
        = some (s.exitCount + 1)) ∧
    ((Fullscreen.securityEffect true false isFullscreen isPageVisible s).1.warningIssued
        = true) ∧
    ((Fullscreen.securityEffect true false isFullscreen isPageVisible s).1.countdown
        = some 30) ∧
    (s.exitCount + 1 ≤ Fullscreen.MAX_EXITS →
      (Fullscreen.securityEffect true false isFullscreen isPageVisible s).2
        = [Fullscreen.HookEvent.warningToast (s.exitCount + 1)]) ∧
    (s.exitCount + 1 > Fullscreen.MAX_EXITS →
      (Fullscreen.securityEffect true false isFullscreen isPageVisible s).2
        = [Fullscreen.HookEvent.autoSubmitToast,
           Fullscreen.HookEvent.autoSubmitCall]) ∧
    (Fullscreen.securityEffect true false isFullscreen isPageVisible
        (Fullscreen.securityEffect true false isFullscreen isPageVisible s).1
      = ((Fullscreen.securityEffect true false isFullscreen isPageVisible s).1, [])) := by
  rcases Nat.lt_or_ge Fullscreen.MAX_EXITS (s.exitCount + 1) with hmax | hmax
  · simp [Fullscreen.securityEffect, hins, hw, hmax]
  · simp [Fullscreen.securityEffect, hins, hw, Nat.not_lt.mpr hmax]

/-- C2 witness: the amended theorem applied to a concrete running
session with two prior violations that loses full-screen, producing the
third warning. -/
theorem c2_witness :
    ((Fullscreen.securityEffect true false false true c2exS).1.exitCount = 3) ∧
    ((Fullscreen.securityEffect true false false true c2exS).1.storage = some 3) ∧
    ((Fullscreen.securityEffect true false false true c2exS).1.countdown = some 30) ∧
    ((Fullscreen.securityEffect true false false true c2exS).2
      = [Fullscreen.HookEvent.warningToast 3]) := by
  obtain ⟨h1, h2, h3, h4, h5, h6, h7⟩ :=
    c2_exit_escalation c2exS false true rfl rfl
  exact ⟨h1, h2, h4, h5 (by decide)⟩

/-! ### Claim C3 -/

/-- C3: final coding submission ignores stored run results and
re-derives every answered question's marks and test results from a
fresh call to the execution collaborator (the stored answer `ans` is
arbitrary — it may claim an earlier all-pass run): on success, marks
are `(passed / total) * 100` (0 when there are no test cases) and the
fresh results are recorded; if the collaborator throws for one
question, that question gets 0 marks and synthesized failing results
carrying the execution-error marker, while the submission still
completes with one entry for every question. -/
theorem c3_submission_reexecution
    (uid examId title : String) (language : Language)
    (executeCode : ExecFlow.ExecuteCodeInput → Except String ExecFlow.ExecuteCodeOutput)
    (qs : List Question) (answers : List (String × StudentAnswer))
    (i : Nat) (hi : i < qs.length) (ans : StudentAnswer) (src : String)
    (ha : mapGet answers (qs.get ⟨i, hi⟩).id = some ans)
    (hsrc : ans.sourceCode = some src) (hne : src ≠ "") :
    ((CodingIf.handleSubmitExam uid examId title language executeCode qs answers
        none).answers.length = qs.length) ∧
    (∀ r : ExecFlow.ExecuteCodeOutput,
      executeCode ⟨langString language, src, (qs.get ⟨i, hi⟩).testCases.getD []⟩
          = Except.ok r →
      ∃ hj : i < (CodingIf.handleSubmitExam uid examId title language executeCode qs
          answers none).answers.length,
        (((CodingIf.handleSubmitExam uid examId title language executeCode qs answers
            none).answers.get ⟨i, hj⟩).marks
          = some (if r.totalCases > 0 then
              ((r.totalPassed : ℚ) / (r.totalCases : ℚ)) * 100 else 0)) ∧
        (((CodingIf.handleSubmitExam uid examId title language executeCode qs answers
            none).answers.get ⟨i, hj⟩).testResults = some r.results) ∧
        (((CodingIf.handleSubmitExam uid examId title language executeCode qs answers
            none).answers.get ⟨i, hj⟩).totalPassed = some r.totalPassed) ∧
        (((CodingIf.handleSubmitExam uid examId title language executeCode qs answers
            none).answers.get ⟨i, hj⟩).totalCases = some r.totalCases)) ∧
    (∀ e : String,
      executeCode ⟨langString language, src, (qs.get ⟨i, hi⟩).testCases.getD []⟩
          = Except.error e →
      ∃ hj : i < (CodingIf.handleSubmitExam uid examId title language executeCode qs
          answers none).answers.length,
        (((CodingIf.handleSubmitExam uid examId title language executeCode qs answers
            none).answers.get ⟨i, hj⟩).marks = some 0) ∧
        (((CodingIf.handleSubmitExam uid examId title language executeCode qs answers
            none).answers.get ⟨i, hj⟩).testResults
          = some (((qs.get ⟨i, hi⟩).testCases.getD []).map CodingIf.syntheticFailure)) ∧
        (∀ tr ∈ (((CodingIf.handleSubmitExam uid examId title language executeCode qs
            answers none).answers.get ⟨i, hj⟩).testResults.getD []),
          tr.isCorrect = false ∧ tr.error = some "Submission execution failed")) := by
  have hans := codingAnswers_eq uid examId title language executeCode qs answers none
  have hlen : (CodingIf.handleSubmitExam uid examId title language executeCode qs answers
      none).answers.length = qs.length := by rw [hans]; simp
  have hget : ∀ hj : i < (CodingIf.handleSubmitExam uid examId title language executeCode
      qs answers none).answers.length,
      (CodingIf.handleSubmitExam uid examId title language executeCode qs answers
        none).answers.get ⟨i, hj⟩
        = (CodingIf.scoreOneQuestion language executeCode answers (qs.get ⟨i, hi⟩)).1 := by
    intro hj
    rw [List.get_eq_getElem, List.get_eq_getElem]
    simp only [hans, List.getElem_map]
  refine ⟨hlen, ?_, ?_⟩
  · intro r hexec
    obtain ⟨h1, h2, h3, h4⟩ := scoreOneQuestion_ok language executeCode answers
      (qs.get ⟨i, hi⟩) ans src r ha hsrc hne hexec
    exact ⟨by rw [hlen]; exact hi,
      by rw [hget]; exact h1, by rw [hget]; exact h2,
      by rw [hget]; exact h3, by rw [hget]; exact h4⟩
  · intro e hexec
    obtain ⟨h1, h2⟩ := scoreOneQuestion_error language executeCode answers
      (qs.get ⟨i, hi⟩) ans src e ha hsrc hne hexec
    refine ⟨by rw [hlen]; exact hi,
      by rw [hget]; exact h1, by rw [hget]; exact h2, ?_⟩
    intro tr htr
    rw [hget, h2] at htr
    simp only [Option.getD_some, List.mem_map] at htr
    obtain ⟨tc, htc, rfl⟩ := htr
    simp [CodingIf.syntheticFailure]

/-- C3 witness: two questions; the first has stored all-pass run results
but its source now fails on re-execution, so it is rescored to 0 marks
with synthesized failing results, and the submission still contains an
entry for both questions. -/
theorem c3_witness :
    ((CodingIf.handleSubmitExam "u" "e" "T" Language.python c3exec [c3q1, c3q2]
        c3answers none).answers.length = 2) ∧
    (∃ hj : 0 < (CodingIf.handleSubmitExam "u" "e" "T" Language.python c3exec
        [c3q1, c3q2] c3answers none).answers.length,
      (((CodingIf.handleSubmitExam "u" "e" "T" Language.python c3exec [c3q1, c3q2]
          c3answers none).answers.get ⟨0, hj⟩).marks = some 0) ∧
      (((CodingIf.handleSubmitExam "u" "e" "T" Language.python c3exec [c3q1, c3q2]
          c3answers none).answers.get ⟨0, hj⟩).testResults
        = some (([⟨"1", "2"⟩] : List TestCase).map CodingIf.syntheticFailure))) := by
  obtain ⟨hlen, hok, herr⟩ := c3_submission_reexecution "u" "e" "T" Language.python
    c3exec [c3q1, c3q2] c3answers 0 (by decide) c3ans1 "boom" rfl rfl (by decide)
  obtain ⟨hj, h1, h2, h3⟩ := herr "network down" rfl
  exact ⟨hlen, hj, h1, h2⟩

/-! ### Claim C4 -/

/-- C4: the MCQ / long-answer submission builder assigns per-question
marks of exactly 100 or 0 — for an mcq question 100 exactly when the
stored selected option index equals the question's correct option
index, for a long-answer question 100 exactly when the stored text
trimmed of whitespace is non-empty — the marks accumulated into the
total equal the marks written on the per-question record, and the
overall score is the arithmetic mean of the per-question marks, with
score 0 and no division when there are zero questions. -/
theorem c4_marks_and_mean (qs : List Question)
    (answers : List (String × Option ExamIf.AnswerValue))
    (statuses : List (String × QuestionStatus))
    (uid examId title : String) (details : Option AutoSubmitDetails) :
    (∀ q : Question,
      ((ExamIf.buildStudentAnswer .mcq answers statuses q).1.marks = some 100 ↔
        (∃ n : Int, (mapGet answers q.id).getD none = some (ExamIf.AnswerValue.num n) ∧
          q.correctOption = some n)) ∧
      ((ExamIf.buildStudentAnswer .mcq answers statuses q).1.marks = some 100 ∨
        (ExamIf.buildStudentAnswer .mcq answers statuses q).1.marks = some 0) ∧
      ((ExamIf.buildStudentAnswer .mcq answers statuses q).2 =
        ((ExamIf.buildStudentAnswer .mcq answers statuses q).1.marks).getD 0)) ∧
    (∀ q : Question,
      ((ExamIf.buildStudentAnswer .longAnswer answers statuses q).1.marks = some 100 ↔
        (∃ t : String, (mapGet answers q.id).getD none = some (ExamIf.AnswerValue.str t) ∧
          jsTrim t ≠ "")) ∧
      ((ExamIf.buildStudentAnswer .longAnswer answers statuses q).1.marks = some 100 ∨
        (ExamIf.buildStudentAnswer .longAnswer answers statuses q).1.marks = some 0) ∧
      ((ExamIf.buildStudentAnswer .longAnswer answers statuses q).2 =
        ((ExamIf.buildStudentAnswer .longAnswer answers statuses q).1.marks).getD 0)) ∧
    ((ExamIf.handleSubmitExam uid examId title .mcq qs answers statuses details).score =
      if qs.length > 0 then
        (qs.map (fun q => (ExamIf.buildStudentAnswer .mcq answers statuses q).2)).sum
          / (qs.length : ℚ)
      else 0) ∧
    ((ExamIf.handleSubmitExam uid examId title .longAnswer qs answers statuses
        details).score =
      if qs.length > 0 then
        (qs.map (fun q => (ExamIf.buildStudentAnswer .longAnswer answers statuses q).2)).sum
          / (qs.length : ℚ)
      else 0) := by
  refine ⟨?_, ?_, ?_, ?_⟩
  · intro q
    refine ⟨?_, ?_, ?_⟩
    · unfold ExamIf.buildStudentAnswer
      rcases h : (mapGet answers q.id).getD none with _ | (n | sv)
      · simp [h]
      · rcases hc : q.correctOption with _ | m
        · simp [h, hc]
        · by_cases hnm : n = m
          · simp [h, hc, hnm]
          · simp only [h, hc]
            simp [hnm]
            omega
      · simp [h]
    · unfold ExamIf.buildStudentAnswer
      rcases h : (mapGet answers q.id).getD none with _ | (n | sv)
      · simp [h]
      · rcases hc : q.correctOption with _ | m
        · simp [h, hc]
        · by_cases hnm : n = m <;> simp [h, hc, hnm]
      · simp [h]
    · unfold ExamIf.buildStudentAnswer
      rcases h : (mapGet answers q.id).getD none with _ | (n | sv)
      · simp [h]
      · rcases hc : q.correctOption with _ | m
        · simp [h, hc]
        · by_cases hnm : n = m <;> simp [h, hc, hnm]
      · simp [h]
  · intro q
    refine ⟨?_, ?_, ?_⟩
    · unfold ExamIf.buildStudentAnswer
      rcases h : (mapGet answers q.id).getD none with _ | (n | sv)
      · simp [h]
      · simp [h]
      · by_cases ht : jsTrim sv = "" <;> simp [h, ht]
    · unfold ExamIf.buildStudentAnswer
      rcases h : (mapGet answers q.id).getD none with _ | (n | sv)
      · simp [h]
      · simp [h]
      · by_cases ht : jsTrim sv = "" <;> simp [h, ht]
    · unfold ExamIf.buildStudentAnswer
      rcases h : (mapGet answers q.id).getD none with _ | (n | sv)
      · simp [h]
      · simp [h]
      · by_cases ht : jsTrim sv = "" <;> simp [h, ht]
  · simp only [ExamIf.handleSubmitExam]
    (repeat' split) <;> simp [accumulate_snd]
  · simp only [ExamIf.handleSubmitExam]
    (repeat' split) <;> simp [accumulate_snd]

/-! ### Claim C5 -/

/-- C5: under the single cooperative execution context of the design,
once a submit invocation has set the in-flight `isSubmitting` flag (set
before anything else in the invocation), a second submit invocation —
double-click, timer or proctoring trigger — is a no-op: the controller
state is unchanged, exactly one persistence write was performed, and
the keyed store holds exactly one record for the (student id, exam id)
document key. -/
theorem c5_single_write (uid examId : String) (p1 p2 : StudentExamSubmission)
    (c : SubmitGuard.ControllerState)
    (hflag : c.isSubmitting = false)
    (hfresh : (c.store.filter (fun e => e.1 = uid ++ "_" ++ examId)).length = 0) :
    (SubmitGuard.submitInvocation uid examId p2
        (SubmitGuard.submitInvocation uid examId p1 c)
      = SubmitGuard.submitInvocation uid examId p1 c) ∧
    (SubmitGuard.submitInvocation uid examId p1 c).isSubmitting = true ∧
    (SubmitGuard.submitInvocation uid examId p1 c).writeCount = c.writeCount + 1 ∧
    ((SubmitGuard.submitInvocation uid examId p1 c).store.filter
        (fun e => e.1 = uid ++ "_" ++ examId)).length = 1 := by
  refine ⟨?_, ?_, ?_, ?_⟩
  · simp [SubmitGuard.submitInvocation, hflag]
  · simp [SubmitGuard.submitInvocation, hflag]
  · simp [SubmitGuard.submitInvocation, hflag]
  · simp only [SubmitGuard.submitInvocation, hflag, Bool.false_eq_true, if_false]
    exact filter_mapSet_of_fresh c.store _ p1 hfresh

/-- C5 witness: a double submit on a fresh controller performs exactly
one write and leaves one stored record. -/
theorem c5_witness :
    (SubmitGuard.submitInvocation "u" "e" c5exP
        (SubmitGuard.submitInvocation "u" "e" c5exP c5exC)
      = SubmitGuard.submitInvocation "u" "e" c5exP c5exC) ∧
    (SubmitGuard.submitInvocation "u" "e" c5exP c5exC).isSubmitting = true ∧
    (SubmitGuard.submitInvocation "u" "e" c5exP c5exC).writeCount = c5exC.writeCount + 1 ∧
    ((SubmitGuard.submitInvocation "u" "e" c5exP c5exC).store.filter
        (fun e => e.1 = "u" ++ "_" ++ "e")).length = 1 :=
  c5_single_write "u" "e" c5exP c5exP c5exC rfl rfl



/-! ### Claim C6 -/

/-- C6 counterexample: `JUMP_TO_QUESTION` does not clamp or validate its
target, so from a valid one-question state (`0 <= 0 < 1`) the action
with payload 5 produces `currentQuestionIndex = 5`, violating the index
invariant; the claim that every action, including `jumpToQuestion` with
an arbitrary target, preserves the invariant is false. -/
theorem c6_counterexample :
    ExamIf.indexInvariant c6exS ∧
    ¬ ExamIf.indexInvariant (ExamIf.examReducer c6exS (.jumpToQuestion 5)) ∧
    (ExamIf.examReducer c6exS (.jumpToQuestion 5)).currentQuestionIndex = 5 := by
  refine ⟨by decide, by decide, by decide⟩

/-- C6 (amended): every action except `JUMP_TO_QUESTION` preserves the
invariant `0 <= currentQuestionIndex < totalQuestions`;
`JUMP_TO_QUESTION` stores its payload unchecked, so it preserves the
invariant exactly under the side condition that the target index is in
range — which the interface guarantees by only dispatching palette
indices `0 .. totalQuestions - 1`. -/
theorem c6_index_invariant (s : ExamIf.State) (a : ExamIf.Action)
    (hinv : ExamIf.indexInvariant s)
    (hjump : ∀ p, a = ExamIf.Action.jumpToQuestion p →
      0 ≤ p ∧ p < s.totalQuestions)
    (hinit : ∀ p, a = ExamIf.Action.initPayload p → ExamIf.indexInvariant p) :
    ExamIf.indexInvariant (ExamIf.examReducer s a) := by
  obtain ⟨h0, h1⟩ := hinv
  cases a with
  | initPayload p => exact hinit p rfl
  | jumpToQuestion p =>
      obtain ⟨hp0, hp1⟩ := hjump p rfl
      unfold ExamIf.examReducer ExamIf.indexInvariant
      constructor <;> (repeat' split) <;> simp_all
  | _ =>
      unfold ExamIf.examReducer ExamIf.indexInvariant
      (repeat' split) <;> simp_all <;> omega

/-- C6 witness: the amended theorem applied to a concrete valid state
with the `NEXT_QUESTION` action. -/
theorem c6_witness :
    ExamIf.indexInvariant (ExamIf.examReducer c6exS ExamIf.Action.nextQuestion) :=
  c6_index_invariant c6exS ExamIf.Action.nextQuestion (by decide)
    (fun p h => nomatch h) (fun p h => nomatch h)

/-! ### Claim C7 -/

/-- C7 counterexample: `PREV_QUESTION` never touches the status map, so
moving back onto a question whose status is `not-visited` leaves it
`not-visited` instead of flipping it to `not-answered` (reachable after
a jump past it); the claim that both directions flip the status is
false. -/
theorem c7_counterexample :
    ((ExamIf.examReducer c7exS .prevQuestion).currentQuestionIndex = 0) ∧
    ((ExamIf.examReducer c7exS .prevQuestion).statuses = c7exS.statuses) ∧
    (mapGet (ExamIf.examReducer c7exS .prevQuestion).statuses "q1"
        ≠ some QuestionStatus.notAnswered) ∧
    (mapGet (ExamIf.examReducer c7exS .prevQuestion).statuses "q1"
        = some QuestionStatus.notVisited) := by
  refine ⟨by decide, by decide, by decide, by decide⟩

/-- C7 (amended): `NEXT_QUESTION` and `PREV_QUESTION` both clamp the
resulting index to `[0, totalQuestions - 1]`; when the question moved
onto by `NEXT_QUESTION` has status `not-visited` it becomes
`not-answered`, but `PREV_QUESTION` leaves the status map entirely
unchanged. -/
theorem c7_navigation_clamps (s : ExamIf.State) (hinv : ExamIf.indexInvariant s) :
    ((ExamIf.examReducer s .nextQuestion).currentQuestionIndex
        = min (s.currentQuestionIndex + 1) (s.totalQuestions - 1)) ∧
    ExamIf.indexInvariant (ExamIf.examReducer s .nextQuestion) ∧
    ((ExamIf.examReducer s .prevQuestion).currentQuestionIndex
        = max (s.currentQuestionIndex - 1) 0) ∧
    ExamIf.indexInvariant (ExamIf.examReducer s .prevQuestion) ∧
    (ExamIf.examReducer s .prevQuestion).statuses = s.statuses ∧
    (∀ qid, listGetI (mapKeys s.statuses)
        (min (s.currentQuestionIndex + 1) (s.totalQuestions - 1)) = some qid →
      mapGet s.statuses qid = some QuestionStatus.notVisited →
      mapGet (ExamIf.examReducer s .nextQuestion).statuses qid
        = some QuestionStatus.notAnswered) := by
  obtain ⟨h0, h1⟩ := hinv
  refine ⟨?_, ?_, ?_, ?_, ?_, ?_⟩
  · unfold ExamIf.examReducer
    (repeat' split) <;> simp_all
  · unfold ExamIf.examReducer ExamIf.indexInvariant
    (repeat' split) <;> (simp_all; try omega)
  · simp [ExamIf.examReducer]
  · unfold ExamIf.examReducer ExamIf.indexInvariant
    simp only
    exact ⟨by omega, by omega⟩
  · simp [ExamIf.examReducer]
  · intro qid hq hnv
    unfold ExamIf.examReducer
    simp only [hq, hnv, if_pos]
    exact mapGet_mapSet_self _ _ _

/-- C7 witness: the amended theorem applied to a concrete two-question
state at index 1. -/
theorem c7_witness :
    ((ExamIf.examReducer c7exS .nextQuestion).currentQuestionIndex
        = min (c7exS.currentQuestionIndex + 1) (c7exS.totalQuestions - 1)) ∧
    ExamIf.indexInvariant (ExamIf.examReducer c7exS .nextQuestion) ∧
    ((ExamIf.examReducer c7exS .prevQuestion).currentQuestionIndex
        = max (c7exS.currentQuestionIndex - 1) 0) ∧
    ExamIf.indexInvariant (ExamIf.examReducer c7exS .prevQuestion) ∧
    (ExamIf.examReducer c7exS .prevQuestion).statuses = c7exS.statuses := by
  obtain ⟨h1, h2, h3, h4, h5, h6⟩ := c7_navigation_clamps c7exS (by decide)
  exact ⟨h1, h2, h3, h4, h5⟩

/-! ### Claim C8 -/

/-- C8: the review mark is sticky — when a question's status is
`marked-for-review`, `ANSWER` stores the new value but leaves the
status map untouched, and `CLEAR_ANSWER` stores `null` but leaves the
status map untouched; `TOGGLE_MARK_FOR_REVIEW` on a marked question
sets the status to `answered` when a non-null answer is stored and
`not-answered` otherwise, and on an unmarked question sets
`marked-for-review`. -/
theorem c8_review_mark_sticky
    (s s2 : ExamIf.State) (pay : ExamIf.AnswerPayload) (qid qid2 : String)
    (hq : pay.qid = qid)
    (hm : mapGet s.statuses qid = some QuestionStatus.markedForReview)
    (hm2 : mapGet s2.statuses qid2 ≠ some QuestionStatus.markedForReview) :
    mapGet (ExamIf.examReducer s (.answer pay)).answers qid = some (some pay.value) ∧
    (ExamIf.examReducer s (.answer pay)).statuses = s.statuses ∧
    mapGet (ExamIf.examReducer s (.clearAnswer qid)).answers qid = some none ∧
    (ExamIf.examReducer s (.clearAnswer qid)).statuses = s.statuses ∧
    mapGet (ExamIf.examReducer s (.toggleMarkForReview qid)).statuses qid
      = some (match mapGet s.answers qid with
              | some (some _) => QuestionStatus.answered
              | _ => QuestionStatus.notAnswered) ∧
    mapGet (ExamIf.examReducer s2 (.toggleMarkForReview qid2)).statuses qid2
      = some QuestionStatus.markedForReview := by
  refine ⟨?_, ?_, ?_, ?_, ?_, ?_⟩
  · simp [ExamIf.examReducer, hq, mapGet_mapSet_self]
  · simp [ExamIf.examReducer, hq, hm]
  · simp [ExamIf.examReducer, mapGet_mapSet_self]
  · simp [ExamIf.examReducer, hm]
  · unfold ExamIf.examReducer
    simp only [hm, if_pos]
    rcases h : mapGet s.answers qid with _ | _ | v <;>
      simp [h, mapGet_mapSet_self]
  · unfold ExamIf.examReducer
    simp only [hm2, if_neg]
    exact mapGet_mapSet_self _ _ _

/-- C8 witness: the theorem applied to a concrete marked question with a
stored answer (toggle yields `answered`) and a concrete unmarked
question (toggle yields `marked-for-review`). -/
theorem c8_witness :
    mapGet (ExamIf.examReducer c8exS (.answer (.mcq "q1" 1))).answers "q1"
      = some (some (ExamIf.AnswerValue.num 1)) ∧
    (ExamIf.examReducer c8exS (.answer (.mcq "q1" 1))).statuses = c8exS.statuses ∧
    mapGet (ExamIf.examReducer c8exS (.clearAnswer "q1")).answers "q1" = some none ∧
    (ExamIf.examReducer c8exS (.clearAnswer "q1")).statuses = c8exS.statuses ∧
    mapGet (ExamIf.examReducer c8exS (.toggleMarkForReview "q1")).statuses "q1"
      = some QuestionStatus.answered ∧
    mapGet (ExamIf.examReducer c8exS2 (.toggleMarkForReview "q1")).statuses "q1"
      = some QuestionStatus.markedForReview :=
  c8_review_mark_sticky c8exS c8exS2 (.mcq "q1" 1) "q1" "q1" rfl rfl (by decide)

/-! ### Claim C9 -/

/-- C9: a submission produced through the auto-submit path (details with
the auto-submitted flag) has status `suspicious` regardless of exam
type and carries the flag and the violation count; a submission not
produced through that path has status `graded` for mcq and coding exams
and `completed` for long-answer exams. -/
theorem c9_status_assignment (uid examId title : String) (qs : List Question)
    (answers : List (String × Option ExamIf.AnswerValue))
    (statuses : List (String × QuestionStatus)) (n : Nat)
    (language : Language)
    (executeCode : ExecFlow.ExecuteCodeInput → Except String ExecFlow.ExecuteCodeOutput)
    (canswers : List (String × StudentAnswer)) :
    ((ExamIf.handleSubmitExam uid examId title .mcq qs answers statuses
        (some ⟨true, n⟩)).status = some .suspicious) ∧
    ((ExamIf.handleSubmitExam uid examId title .longAnswer qs answers statuses
        (some ⟨true, n⟩)).status = some .suspicious) ∧
    ((ExamIf.handleSubmitExam uid examId title .mcq qs answers statuses
        (some ⟨true, n⟩)).autoSubmitted = some true) ∧
    ((ExamIf.handleSubmitExam uid examId title .mcq qs answers statuses
        (some ⟨true, n⟩)).exitCount = some n) ∧
    ((ExamIf.handleSubmitExam uid examId title .mcq qs answers statuses
        (some ⟨false, n⟩)).status = some .graded) ∧
    ((ExamIf.handleSubmitExam uid examId title .longAnswer qs answers statuses
        (some ⟨false, n⟩)).status = some .completed) ∧
    ((ExamIf.handleSubmitExam uid examId title .mcq qs answers statuses
        none).status = some .graded) ∧
    ((ExamIf.handleSubmitExam uid examId title .longAnswer qs answers statuses
        none).status = some .completed) ∧
    ((CodingIf.handleSubmitExam uid examId title language executeCode qs canswers
        (some ⟨true, n⟩)).status = some .suspicious) ∧
    ((CodingIf.handleSubmitExam uid examId title language executeCode qs canswers
        (some ⟨true, n⟩)).autoSubmitted = some true) ∧
    ((CodingIf.handleSubmitExam uid examId title language executeCode qs canswers
        (some ⟨true, n⟩)).exitCount = some n) ∧
    ((CodingIf.handleSubmitExam uid examId title language executeCode qs canswers
        none).status = some .graded) := by
  refine ⟨?_, ?_, ?_, ?_, ?_, ?_, ?_, ?_, ?_, ?_, ?_, ?_⟩ <;>
    simp [ExamIf.handleSubmitExam, CodingIf.handleSubmitExam]

/-! ### Claim C10 -/

/-- C10: for every input and every behaviour of the Piston collaborator,
`executeCodeFlow` returns a well-formed result: one result per test
case in input order (matching input and expected output), `totalCases`
equal to the number of test cases, `totalPassed` equal to the number of
results marked correct, and on every per-test-case network or API
failure the corresponding result has `isCorrect = false` and a
non-empty error message instead of a propagated exception (the flow is
a total function). -/
theorem c10_execute_code_flow_total
    (fetchOutcome : ExecFlow.PistonRequest → ExecFlow.FetchOutcome)
    (input : ExecFlow.ExecuteCodeInput) :
    ((ExecFlow.executeCodeFlow fetchOutcome input).results.length
        = input.testCases.length) ∧
    ((ExecFlow.executeCodeFlow fetchOutcome input).totalCases
        = input.testCases.length) ∧
    ((ExecFlow.executeCodeFlow fetchOutcome input).totalPassed
        = ((ExecFlow.executeCodeFlow fetchOutcome input).results.filter
            (fun r => r.isCorrect)).length) ∧
    List.Forall₂ (fun (r : TestResult) (tc : TestCase) =>
        r.input = tc.input ∧ r.expectedOutput = tc.expectedOutput ∧
        ((fetchOutcome ⟨ExecFlow.mapLanguage input.language, input.sourceCode,
            tc.input⟩).isFailure = false
          ∨ (r.isCorrect = false ∧ ∃ e, r.error = some e ∧ e ≠ "")))
      (ExecFlow.executeCodeFlow fetchOutcome input).results input.testCases := by
  obtain ⟨hres, hpass⟩ := executeCodeFlow_spec fetchOutcome input
  refine ⟨?_, ?_, ?_, ?_⟩
  · rw [hres]; simp
  · simp [ExecFlow.executeCodeFlow]
  · rw [hpass, hres]
    exact sum_snd_eq_filter_length _ (fun tc => runTestCase_snd _ _) input.testCases
  · rw [hres]
    have hR : ∀ tc : TestCase,
        (fun (r : TestResult) (tc : TestCase) =>
          r.input = tc.input ∧ r.expectedOutput = tc.expectedOutput ∧
          ((fetchOutcome ⟨ExecFlow.mapLanguage input.language, input.sourceCode,
              tc.input⟩).isFailure = false
            ∨ (r.isCorrect = false ∧ ∃ e, r.error = some e ∧ e ≠ "")))
          ((ExecFlow.runTestCase
            (fetchOutcome ⟨ExecFlow.mapLanguage input.language, input.sourceCode,
              tc.input⟩) tc).1) tc := by
      intro tc
      cases hfr : fetchOutcome ⟨ExecFlow.mapLanguage input.language, input.sourceCode,
          tc.input⟩ with
      | ok runOutput stderr =>
          refine ⟨by simp [ExecFlow.runTestCase], by simp [ExecFlow.runTestCase], ?_⟩
          left
          simp [ExecFlow.FetchOutcome.isFailure, hfr]
      | httpError statusText body =>
          refine ⟨by simp [ExecFlow.runTestCase],
            by simp [ExecFlow.runTestCase],
            Or.inr ⟨by simp [ExecFlow.runTestCase], ?_⟩⟩
          refine ⟨"API Error: " ++ statusText ++ (if body = "" then "" else " - " ++ body),
            by simp [ExecFlow.runTestCase], ?_⟩
          intro h
          have hd := congrArg String.data h
          simp [String.data_append] at hd
      | threw message =>
          refine ⟨by simp [ExecFlow.runTestCase],
            by simp [ExecFlow.runTestCase],
            Or.inr ⟨by simp [ExecFlow.runTestCase], ?_⟩⟩
          refine ⟨if message = "" then "An unknown error occurred." else message,
            by simp [ExecFlow.runTestCase], ?_⟩
          by_cases hm : message = "" <;> simp [hm]
    clear hres hpass
    induction input.testCases with
    | nil => exact List.Forall₂.nil
    | cons tc l ih => exact List.Forall₂.cons (hR tc) ih


end Spec2Proof
